import Mathlib

/-!
Verification of `insuree_batch/services.py` (openIMIS insuree batch module).

The development shallowly embeds the module's two code paths:
* number generation (`generate_insuree_number`, `get_random`,
  `get_location_id_len`, `generate_insuree_numbers`), and
* export (`get_insurees_to_export`, `export_insurees`),
with the Django ORM stores modelled as explicit lists threaded through the
functions, and `random.randint` draws passed in explicitly (their range
appears as hypotheses mirroring `get_random`'s bounds).
-/

set_option maxRecDepth 4000

namespace InsureeBatch

/-! ### Decimal rendering, modelling Python `str(n)` and `f"%0{w}d" % n` -/

/-- Fuel-driven decimal digit counter; `numLenAux f n` is the number of decimal
digits of `n` whenever `n ≤ f`. -/
def numLenAux : Nat → Nat → Nat
  | 0, _ => 1
  | f + 1, n => if n < 10 then 1 else 1 + numLenAux f (n / 10)

/-- Number of decimal digits of `n`: the length of Python `str(n)` for `n ≥ 0`
(`numLen 0 = 1`, matching `len("0")`). -/
def numLen (n : Nat) : Nat := numLenAux n n

/-- `fixedPad w n` is the fixed-width `w` decimal rendering of `n`:
the last `w` decimal digits of `n`, zero padded on the left. -/
def fixedPad : Nat → Nat → List Char
  | 0, _ => []
  | w + 1, n => fixedPad w (n / 10) ++ [Nat.digitChar (n % 10)]

/-- Model of the Python format `f"%0{w}d" % n` used by `generate_insuree_number`:
the plain decimal rendering of `n`, left-padded with `'0'` up to width `w`
(and never truncated when `n` has more than `w` digits). -/
def pad0 (w n : Nat) : List Char :=
  List.replicate (w - numLen n) '0' ++ fixedPad (numLen n) n

/-- Character test for decimal digits (`ord '0' = 48`, `ord '9' = 57`),
used to model Python `int(...)` parsing. -/
def isDigitCh (c : Char) : Bool := 48 ≤ c.toNat && c.toNat ≤ 57

/-- Numeric value of a digit string, as computed by Python `int` on a string of
digits: left fold of `acc * 10 + (ord c - ord '0')`. -/
def charsVal (l : List Char) : Nat := l.foldl (fun acc c => acc * 10 + (c.toNat - 48)) 0

/-- Model of Python `int(location.code)` for location codes: succeeds exactly on
nonempty all-digit strings, returning their numeric value, and fails (the
`ValueError` branch of the source) otherwise. -/
def parseNat (s : String) : Option Nat :=
  if s.data.isEmpty then none
  else if s.data.all isDigitCh then some (charsVal s.data) else none

/-! ### The data model for number generation

`Location` mirrors `location.models.Location` (the fields this module reads:
`code`, `type`, `validity_to`); the location table is an explicit list.
`GenStore` carries the two identifier stores the generation path consults:
`Insuree.chf_id` values and `BatchInsureeNumber.insuree_number` values. -/

structure Location where
  code : String
  type : String
  validity_to : Option Nat
deriving DecidableEq, Repr

/-- The Django `Max` aggregate over a list of values: `none` on an empty list,
as `aggregate(max_len=Max("code_len"))["max_len"]` yields `NULL`/`None`. -/
def maxAgg : List Nat → Option Nat
  | [] => none
  | x :: xs =>
    match maxAgg xs with
    | none => some x
    | some m => some (max x m)

/-- `get_location_id_len`: the maximum `code` length among locations of the given
type with `validity_to` null (currently valid), or `none` when there are no such
locations. The source's `lru_cache` only memoises this pure read. -/
def get_location_id_len (locs : List Location) (location_type : String) : Option Nat :=
  maxAgg (((locs.filter fun l => l.type == location_type && l.validity_to == none).map
    fun l => l.code.length))

/-- The two ways `generate_insuree_number` can raise:
`locationCodeInvalid` is the re-raised `ValueError` from `int(location.code)`;
`typeErrorNone` is the uncaught `TypeError` from `length - modulo_len - None`
when `get_location_id_len` returns `None` (not a `ValueError`, so the
`except ValueError` clause does not catch it). -/
inductive GenError where
  | locationCodeInvalid
  | typeErrorNone
deriving DecidableEq, Repr

/-- Effective `insuree_number_length`: the configured value, or the default 9
when either configuration value is absent (the source then warns and sets both
defaults). -/
def effLength (cfgLen cfgMod : Option Nat) : Nat :=
  match cfgLen, cfgMod with
  | some l, some _ => l
  | _, _ => 9

/-- Effective `insuree_number_modulo_root`: the configured value, or the
default 7 when either configuration value is absent. -/
def effModulo (cfgLen cfgMod : Option Nat) : Nat :=
  match cfgLen, cfgMod with
  | some _, some m => m
  | _, _ => 7

/-- Lower bound of `get_random(length)`, i.e. `random.randint(10 ** (length - 1), ...)`. -/
def get_random_lo (length : Nat) : Nat := 10 ^ (length - 1)

/-- Upper bound of `get_random(length)`, i.e. `random.randint(..., (10 ** length) - 1)`. -/
def get_random_hi (length : Nat) : Nat := 10 ^ length - 1

/-- `generate_insuree_number`, with the random draw `r` passed explicitly
(the source draws it via `get_random`; theorems carry its range as hypotheses).
Control flow mirrors the source: with a location, `int(location.code)` is
evaluated first (its `ValueError` is logged and re-raised), then
`get_location_id_len` — a `None` result makes the integer subtraction raise an
uncaught `TypeError`. The result is
`f"%0{length - modulo_len}d" % main_number` + `f"%0{modulo_len}d" % checksum`.
Exponent arithmetic is in `Nat`; the theorems only instantiate configurations
where `modulo_len` (+ the location code length) is below `length`, which is
where the Python arithmetic is integer-valued. -/
def generate_insuree_number (cfgLen cfgMod : Option Nat) (locs : List Location)
    (location : Option Location) (r : Nat) : Except GenError String :=
  let length := effLength cfgLen cfgMod
  let modulo := effModulo cfgLen cfgMod
  let modulo_len := numLen modulo
  match location with
  | some loc =>
    match parseNat loc.code with
    | none => .error .locationCodeInvalid
    | some code =>
      match get_location_id_len locs loc.type with
      | none => .error .typeErrorNone
      | some locLen =>
        let main_number := code * 10 ^ (length - modulo_len - locLen) + r
        .ok ⟨pad0 (length - modulo_len) main_number ++ pad0 modulo_len (main_number % modulo)⟩
  | none =>
    let main_number := r
    .ok ⟨pad0 (length - modulo_len) main_number ++ pad0 modulo_len (main_number % modulo)⟩

/-- The `main_number` computed inside `generate_insuree_number` (defined when the
location code parses and the location-length lookup succeeds). -/
def mainNumberOf (cfgLen cfgMod : Option Nat) (locs : List Location)
    (location : Option Location) (r : Nat) : Nat :=
  match location with
  | none => r
  | some loc =>
    (parseNat loc.code).getD 0 *
      10 ^ (effLength cfgLen cfgMod - numLen (effModulo cfgLen cfgMod) -
        (get_location_id_len locs loc.type).getD 0) + r

/-- Well-formedness of one `generate_insuree_number` call: the modulo is positive,
the configured length leaves room for the checksum (and the location code), and
the random draw `r` lies in the `get_random` range for the requested width.
With a location it additionally requires the code to parse, the length lookup to
succeed, and the code to fit in the looked-up width (true whenever the location
is itself a currently valid location of its type, see `code_fits_location_len`). -/
def genOk (cfgLen cfgMod : Option Nat) (locs : List Location)
    (location : Option Location) (r : Nat) : Bool :=
  let length := effLength cfgLen cfgMod
  let modulo := effModulo cfgLen cfgMod
  let w := numLen modulo
  decide (1 ≤ modulo) &&
  match location with
  | none =>
    decide (w < length) && decide (get_random_lo (length - w) ≤ r) &&
      decide (r ≤ get_random_hi (length - w))
  | some loc =>
    match parseNat loc.code, get_location_id_len locs loc.type with
    | some code, some locLen =>
      decide (1 ≤ locLen) && decide (code < 10 ^ locLen) && decide (w + locLen < length) &&
        decide (get_random_lo (length - w - locLen) ≤ r) &&
        decide (r ≤ get_random_hi (length - w - locLen))
    | _, _ => false

/-! ### Batch generation (`generate_insuree_numbers`) -/

/-- The identifier stores consulted by the uniqueness check:
all `Insuree.chf_id` values and all `BatchInsureeNumber.insuree_number` values
(the latter across every batch — the filter in the source is unscoped). -/
structure GenStore where
  insurees : List String
  assigned : List String
deriving DecidableEq, Repr

inductive BatchError where
  | genError (e : GenError)
  | exhausted
deriving DecidableEq, Repr

/-- The iteration count of Python `range(a, b)`: `len(range(a, b)) = b - a`
whenever `a ≤ b`. -/
def pyRangeLen (a b : Nat) : Nat := b - a

/-- The number of iterations of the source's retry loop
`for retry in range(1, 10000)`. -/
def maxAttempts : Nat := pyRangeLen 1 10000

/-- The inner retry loop of `generate_insuree_numbers`: draw a candidate, accept
it if it is in neither store, retry otherwise; when the `for` loop falls through
(`fuel` runs out) the `else` clause raises (modelled as `.exhausted`).
`rng idx` is the value of the `idx`-th `random.randint` draw of the run; the
returned index threads the stream. An exception inside
`generate_insuree_number` propagates immediately. -/
def retryLoop (cfgLen cfgMod : Option Nat) (locs : List Location)
    (location : Option Location) (store : GenStore) (rng : Nat → Nat) (idx : Nat) :
    Nat → Except BatchError (String × Nat)
  | 0 => .error .exhausted
  | fuel + 1 =>
    match generate_insuree_number cfgLen cfgMod locs location (rng idx) with
    | .error e => .error (.genError e)
    | .ok num =>
      if store.insurees.contains num || store.assigned.contains num then
        retryLoop cfgLen cfgMod locs location store rng (idx + 1) fuel
      else
        .ok (num, idx + 1)

/-- The outer loop of `generate_insuree_numbers`: one collision-resolved number
per iteration, each committed (`BatchInsureeNumber.objects.create`) before the
next is generated, so later uniqueness checks see it. Returns the final store
and the numbers committed to the batch, in order. -/
def batchLoop (cfgLen cfgMod : Option Nat) (locs : List Location)
    (location : Option Location) (rng : Nat → Nat) :
    GenStore → Nat → Nat → Except BatchError (GenStore × List String)
  | store, _, 0 => .ok (store, [])
  | store, idx, amount + 1 =>
    match retryLoop cfgLen cfgMod locs location store rng idx maxAttempts with
    | .error e => .error e
    | .ok (num, idx') =>
      match batchLoop cfgLen cfgMod locs location rng
          { store with assigned := store.assigned ++ [num] } idx' amount with
      | .error e => .error e
      | .ok (store', nums) => .ok (store', num :: nums)

/-- `generate_insuree_numbers(amount, ...)`: create the batch, then generate and
commit `amount` numbers sequentially (`for i in range(1, amount + 1)`).
The batch record's own fields (audit user, comment) do not affect the
identifier stores and are omitted. -/
def generate_insuree_numbers (amount : Nat) (cfgLen cfgMod : Option Nat)
    (locs : List Location) (location : Option Location) (store : GenStore)
    (rng : Nat → Nat) : Except BatchError (GenStore × List String) :=
  batchLoop cfgLen cfgMod locs location rng store 0 amount

/-! ### Export (`get_insurees_to_export`, `export_insurees`)

The person rows read for export (`tblInsuree` columns used by the source) and
the `BatchInsureeNumber` rows with their print state. The photo field holds the
base64 text of `insuree.photo.photo` when present. The archive is modelled by
its member names; `decodeOk` models whether `base64.decodebytes` succeeds on a
given photo text, and `zipOk` whether writing the zip file to disk succeeds. -/

structure InsureeRec where
  chf_id : String
  other_names : String
  last_name : String
  dob : String
  gender_id : String
  photo : Option String
deriving DecidableEq, Repr

structure BatchNumber where
  batch_id : Nat
  insuree_number : String
  print_date : Option Nat
deriving DecidableEq, Repr

structure ExportStore where
  insurees : List InsureeRec
  numbers : List BatchNumber
deriving DecidableEq, Repr

inductive ExportError where
  | decodeError
  | zipWriteError
deriving DecidableEq, Repr

/-- The optional `and ibb.batch_id=%s` filter of the export query. -/
def batchMatch (batch : Option Nat) (n : BatchNumber) : Bool :=
  match batch with
  | none => true
  | some b => n.batch_id == b

/-- The join/filter predicate of the raw SQL:
`"tblInsuree"."CHFID" = ibb."CHFID" and ibb.print_date is null`
plus the optional batch filter. -/
def numberMatches (batch : Option Nat) (i : InsureeRec) (n : BatchNumber) : Bool :=
  n.insuree_number == i.chf_id && n.print_date == none && batchMatch batch n

/-- `get_insurees_to_export(batch, amount)`: inner join of `tblInsuree` with
`insuree_batch_batchinsureenumber` on CHFID, filtered to unprinted rows and
optionally to one batch, capped at `amount` rows (`TOP`/`LIMIT` — both dialects
cap the result set; a falsy `amount` of `0` applies no cap, as in
`if amount and engine == ...`). The function always returns a queryset, never
`None`. -/
def get_insurees_to_export (store : ExportStore) (batch : Option Nat)
    (amount : Option Nat) : List InsureeRec :=
  let rows := store.insurees.flatMap fun i =>
    (store.numbers.filter (numberMatches batch i)).map fun _ => i
  match amount with
  | some (a + 1) => rows.take (a + 1)
  | _ => rows

/-- Python truthiness of `insuree.photo and insuree.photo.photo`: a photo is
bundled only when the photo object exists and its base64 text is nonempty. -/
def photoOf (i : InsureeRec) : Option String :=
  match i.photo with
  | some p => if p = "" then none else some p
  | none => none

/-- The per-insuree bundling loop body: for each selected insuree a row is
written to `index.csv`, and a photo with undecodable base64 raises
(`base64.decodebytes`), aborting the whole export. Returns the photo archive
member names (`f"{insuree.chf_id}.jpg"`), or `none` on a decode failure. -/
def bundlePhotos (decodeOk : String → Bool) : List InsureeRec → Option (List String)
  | [] => some []
  | i :: rest =>
    match photoOf i with
    | none => bundlePhotos decodeOk rest
    | some p =>
      if decodeOk p then
        match bundlePhotos decodeOk rest with
        | none => none
        | some fs => some ((i.chf_id ++ ".jpg") :: fs)
      else none

/-- `export_insurees(batch, amount, dry_run)`. Mirrors the source's order of
effects: select; (dead) `if to_export is None: return None` guard — the raw
queryset is never `None`; write `index.csv` and decode the photos (a decode
failure aborts before any store write); unless `dry_run`, set
`print_date = datetime.now()` on every `BatchInsureeNumber` whose value is in
the selected chf_ids; finally write the zip archive — only after the update.
Returns the outcome (archive member names, or the `None` of the dead branch)
and the resulting store. -/
def export_insurees (store : ExportStore) (batch : Option Nat) (amount : Option Nat)
    (dry_run : Bool) (decodeOk : String → Bool) (zipOk : Bool) (now : Nat) :
    Except ExportError (Option (List String)) × ExportStore :=
  let to_exportQ : Option (List InsureeRec) := some (get_insurees_to_export store batch amount)
  match to_exportQ with
  | none => (.ok none, store)
  | some to_export =>
    match bundlePhotos decodeOk to_export with
    | none => (.error .decodeError, store)
    | some photos =>
      let store' :=
        if dry_run then store
        else
          { store with
            numbers := store.numbers.map fun n =>
              if (to_export.map fun i => i.chf_id).contains n.insuree_number then
                { n with print_date := some now }
              else n }
      if zipOk then (.ok (some ("index.csv" :: photos)), store')
      else (.error .zipWriteError, store')

/-- A `BatchInsureeNumber` row selected by one export run: unprinted, in the
requested batch, and its value among the chf_ids of the (amount-capped)
selection. -/
def selRow (store : ExportStore) (batch : Option Nat) (amount : Option Nat)
    (n : BatchNumber) : Bool :=
  (n.print_date == none) && batchMatch batch n &&
    ((get_insurees_to_export store batch amount).map fun i => i.chf_id).contains n.insuree_number

/-! ### Properties of the decimal rendering -/

theorem numLenAux_congr : ∀ f g n, n ≤ f → n ≤ g → numLenAux f n = numLenAux g n
  | 0, 0, _, _, _ => rfl
  | 0, g + 1, n, hf, _ => by
      have hn : n = 0 := Nat.le_zero.mp hf
      subst hn
      simp [numLenAux]
  | f + 1, 0, n, _, hg => by
      have hn : n = 0 := Nat.le_zero.mp hg
      subst hn
      simp [numLenAux]
  | f + 1, g + 1, n, hf, hg => by
      by_cases h : n < 10
      · simp [numLenAux, h]
      · have ihf : n / 10 ≤ f := by omega
        have ihg : n / 10 ≤ g := by omega
        simp only [numLenAux, if_neg h]
        rw [numLenAux_congr f g (n / 10) ihf ihg]

/-- Unfolding equation for `numLen`. -/
theorem numLen_eq (n : Nat) : numLen n = if n < 10 then 1 else 1 + numLen (n / 10) := by
  by_cases h : n < 10
  · cases n with
    | zero => simp [numLen, numLenAux]
    | succ m => simp [numLen, numLenAux, h]
  · obtain ⟨m, rfl⟩ : ∃ m, n = m + 1 := ⟨n - 1, by omega⟩
    simp only [numLen, numLenAux, if_neg h]
    rw [numLenAux_congr m ((m + 1) / 10) ((m + 1) / 10) (by omega) (Nat.le_refl _)]

theorem one_le_numLen (n : Nat) : 1 ≤ numLen n := by
  rw [numLen_eq]
  by_cases h : n < 10 <;> simp [h]

/-- Every natural number is below `10 ^ (its digit count)`. -/
theorem lt_pow_numLen (n : Nat) : n < 10 ^ numLen n := by
  induction n using Nat.strong_induction_on with
  | _ n ih =>
    rw [numLen_eq]
    by_cases h : n < 10
    · simp [h]
    · rw [if_neg h]
      have hdiv : n / 10 < n := by omega
      have hk := ih (n / 10) hdiv
      have h2 : n < 10 * 10 ^ numLen (n / 10) := by omega
      calc n < 10 * 10 ^ numLen (n / 10) := h2
        _ = 10 ^ (1 + numLen (n / 10)) := by rw [pow_add, pow_one]

/-- A number below `10 ^ w` has at most `w` digits (for positive width `w`). -/
theorem numLen_le_of_lt_pow : ∀ {w n : Nat}, 1 ≤ w → n < 10 ^ w → numLen n ≤ w := by
  intro w
  induction w with
  | zero => omega
  | succ w ih =>
    intro n _ h
    rw [numLen_eq]
    by_cases h10 : n < 10
    · simp [h10]
    · rw [if_neg h10]
      have hw1 : 1 ≤ w := by
        rcases Nat.eq_zero_or_pos w with hw | hw
        · subst hw; simp at h; omega
        · exact hw
      have hdiv : n / 10 < 10 ^ w := by
        rw [pow_succ] at h; omega
      have := ih hw1 hdiv
      omega

theorem fixedPad_length (w n : Nat) : (fixedPad w n).length = w := by
  induction w generalizing n with
  | zero => rfl
  | succ w ih => simp [fixedPad, ih]

theorem fixedPad_succ : ∀ {w n : Nat}, n < 10 ^ w → fixedPad (w + 1) n = '0' :: fixedPad w n := by
  intro w
  induction w with
  | zero =>
    intro n h
    have hn : n = 0 := by simpa using h
    subst hn
    rfl
  | succ w ih =>
    intro n h
    have hdiv : n / 10 < 10 ^ w := by rw [pow_succ] at h; omega
    show fixedPad (w + 1) (n / 10) ++ [Nat.digitChar (n % 10)] = '0' :: fixedPad (w + 1) n
    rw [ih hdiv]
    simp [fixedPad]

/-- Below `10 ^ w` (with `w ≥ 1`), the zero-padded format `%0wd` agrees with the
fixed-width-`w` rendering. -/
theorem pad0_eq_fixedPad : ∀ {w n : Nat}, 1 ≤ w → n < 10 ^ w → pad0 w n = fixedPad w n := by
  intro w
  induction w with
  | zero => omega
  | succ w ih =>
    intro n _ h
    have hle : numLen n ≤ w + 1 := numLen_le_of_lt_pow (by omega) h
    rcases Nat.lt_or_ge (numLen n) (w + 1) with hlt | hge
    · have hw1 : 1 ≤ w := by have := one_le_numLen n; omega
      have hnw : n < 10 ^ w :=
        Nat.lt_of_lt_of_le (lt_pow_numLen n) (Nat.pow_le_pow_right (by norm_num) (by omega))
      rw [fixedPad_succ hnw, ← ih hw1 hnw]
      show pad0 (w + 1) n = '0' :: pad0 w n
      unfold pad0
      rw [show w + 1 - numLen n = (w - numLen n) + 1 by omega]
      simp [List.replicate_succ]
    · have heq : numLen n = w + 1 := by omega
      unfold pad0
      rw [heq]
      simp

theorem pad0_length {w n : Nat} (hw : 1 ≤ w) (h : n < 10 ^ w) : (pad0 w n).length = w := by
  unfold pad0
  have hle : numLen n ≤ w := numLen_le_of_lt_pow hw h
  simp [fixedPad_length]
  omega

/-- Decimal rendering splits along a factor of `10 ^ k`:
the rendering of `c * 10 ^ k + r` is the rendering of `c` followed by the
`k`-digit rendering of `r`. -/
theorem fixedPad_mul_pow_add : ∀ {k : Nat} (a c : Nat) {r : Nat}, r < 10 ^ k →
    fixedPad (a + k) (c * 10 ^ k + r) = fixedPad a c ++ fixedPad k r := by
  intro k
  induction k with
  | zero =>
    intro a c r h
    have hr : r = 0 := by simpa using h
    subst hr
    simp [fixedPad]
  | succ k ih =>
    intro a c r h
    have hsplit : c * 10 ^ (k + 1) + r = (c * 10 ^ k) * 10 + r := by ring
    have hq : (c * 10 ^ (k + 1) + r) / 10 = c * 10 ^ k + r / 10 := by rw [hsplit]; omega
    have hm : (c * 10 ^ (k + 1) + r) % 10 = r % 10 := by rw [hsplit]; omega
    have hr : r / 10 < 10 ^ k := by rw [pow_succ] at h; omega
    show fixedPad ((a + k) + 1) _ = _
    rw [show fixedPad ((a + k) + 1) (c * 10 ^ (k + 1) + r) =
        fixedPad (a + k) ((c * 10 ^ (k + 1) + r) / 10) ++
          [Nat.digitChar ((c * 10 ^ (k + 1) + r) % 10)] from rfl]
    rw [hq, hm, ih a c hr]
    simp [fixedPad]

theorem digitChar_val {m : Nat} (h : m < 10) : (Nat.digitChar m).toNat - 48 = m := by
  interval_cases m <;> decide

theorem digitChar_isDigitCh {m : Nat} (h : m < 10) : isDigitCh (Nat.digitChar m) = true := by
  interval_cases m <;> decide

theorem foldl_fixedPad : ∀ {w n : Nat}, n < 10 ^ w → ∀ acc : Nat,
    List.foldl (fun acc c => acc * 10 + (c.toNat - 48)) acc (fixedPad w n) = acc * 10 ^ w + n := by
  intro w
  induction w with
  | zero =>
    intro n h acc
    have hn : n = 0 := by simpa using h
    subst hn
    simp [fixedPad]
  | succ w ih =>
    intro n h acc
    have hdiv : n / 10 < 10 ^ w := by rw [pow_succ] at h; omega
    simp only [fixedPad, List.foldl_append]
    rw [ih hdiv acc]
    simp only [List.foldl]
    rw [digitChar_val (Nat.mod_lt n (by norm_num))]
    have hassoc : acc * 10 ^ (w + 1) = (acc * 10 ^ w) * 10 := by ring
    rw [hassoc]
    omega

theorem foldl_zero_replicate :
    ∀ k, List.foldl (fun acc c => acc * 10 + (c.toNat - 48)) 0 (List.replicate k '0') = 0
  | 0 => rfl
  | k + 1 => by
    rw [List.replicate_succ]
    have h0 : (0 : Nat) * 10 + ('0'.toNat - 48) = 0 := by decide
    simp only [List.foldl, h0]
    exact foldl_zero_replicate k

/-- The zero-padded rendering of `n` evaluates back to `n`. -/
theorem charsVal_pad0 (w n : Nat) : charsVal (pad0 w n) = n := by
  unfold charsVal pad0
  rw [List.foldl_append, foldl_zero_replicate, foldl_fixedPad (lt_pow_numLen n) 0]
  simp

theorem fixedPad_all_digit (w : Nat) : ∀ n : Nat, (fixedPad w n).all isDigitCh = true := by
  induction w with
  | zero => intro n; rfl
  | succ w ih =>
    intro n
    simp only [fixedPad, List.all_append, ih]
    simp [digitChar_isDigitCh (Nat.mod_lt n (by norm_num))]

theorem pad0_all_digit (w n : Nat) : (pad0 w n).all isDigitCh = true := by
  unfold pad0
  rw [List.all_append, fixedPad_all_digit, Bool.and_true]
  rw [List.all_eq_true]
  intro c hc
  rw [List.eq_of_mem_replicate hc]
  decide

/-! ### Shape of generated numbers -/

theorem genOk_modulo_pos {cfgLen cfgMod : Option Nat} {locs : List Location}
    {location : Option Location} {r : Nat}
    (h : genOk cfgLen cfgMod locs location r = true) : 1 ≤ effModulo cfgLen cfgMod := by
  simp only [genOk, Bool.and_eq_true, decide_eq_true_eq] at h
  exact h.1

theorem genOk_none_spec {cfgLen cfgMod : Option Nat} {locs : List Location} {r : Nat}
    (h : genOk cfgLen cfgMod locs none r = true) :
    1 ≤ effModulo cfgLen cfgMod ∧
    numLen (effModulo cfgLen cfgMod) < effLength cfgLen cfgMod ∧
    r < 10 ^ (effLength cfgLen cfgMod - numLen (effModulo cfgLen cfgMod)) := by
  simp only [genOk, get_random_lo, get_random_hi, Bool.and_eq_true, decide_eq_true_eq] at h
  have hpow : 0 < 10 ^ (effLength cfgLen cfgMod - numLen (effModulo cfgLen cfgMod)) :=
    Nat.pos_pow_of_pos _ (by norm_num)
  exact ⟨h.1, h.2.1.1, by omega⟩

theorem genOk_some_spec {cfgLen cfgMod : Option Nat} {locs : List Location} {loc : Location}
    {r c a : Nat} (hp : parseNat loc.code = some c)
    (hl : get_location_id_len locs loc.type = some a)
    (h : genOk cfgLen cfgMod locs (some loc) r = true) :
    1 ≤ effModulo cfgLen cfgMod ∧ 1 ≤ a ∧ c < 10 ^ a ∧
    numLen (effModulo cfgLen cfgMod) + a < effLength cfgLen cfgMod ∧
    r < 10 ^ (effLength cfgLen cfgMod - numLen (effModulo cfgLen cfgMod) - a) := by
  simp only [genOk, hp, hl, get_random_lo, get_random_hi, Bool.and_eq_true,
    decide_eq_true_eq] at h
  have hpow : 0 < 10 ^ (effLength cfgLen cfgMod - numLen (effModulo cfgLen cfgMod) - a) :=
    Nat.pos_pow_of_pos _ (by norm_num)
  exact ⟨h.1, h.2.1.1.1.1, h.2.1.1.1.2, h.2.1.1.2, by omega⟩

theorem genOk_w_lt {cfgLen cfgMod : Option Nat} {locs : List Location}
    {location : Option Location} {r : Nat}
    (h : genOk cfgLen cfgMod locs location r = true) :
    numLen (effModulo cfgLen cfgMod) < effLength cfgLen cfgMod := by
  cases location with
  | none => exact (genOk_none_spec h).2.1
  | some loc =>
    cases hp : parseNat loc.code with
    | none => simp [genOk, hp] at h
    | some c =>
      cases hl : get_location_id_len locs loc.type with
      | none => simp [genOk, hp, hl] at h
      | some a =>
        have := (genOk_some_spec hp hl h).2.2.2.1
        omega

/-- Under `genOk`, `generate_insuree_number` succeeds and its value is the
zero-padded main number followed by the zero-padded checksum. -/
theorem generate_ok_eq (cfgLen cfgMod : Option Nat) (locs : List Location)
    (location : Option Location) (r : Nat)
    (h : genOk cfgLen cfgMod locs location r = true) :
    generate_insuree_number cfgLen cfgMod locs location r =
      .ok ⟨pad0 (effLength cfgLen cfgMod - numLen (effModulo cfgLen cfgMod))
            (mainNumberOf cfgLen cfgMod locs location r) ++
          pad0 (numLen (effModulo cfgLen cfgMod))
            (mainNumberOf cfgLen cfgMod locs location r % effModulo cfgLen cfgMod)⟩ := by
  cases location with
  | none => rfl
  | some loc =>
    cases hp : parseNat loc.code with
    | none => simp [genOk, hp] at h
    | some c =>
      cases hl : get_location_id_len locs loc.type with
      | none => simp [genOk, hp, hl] at h
      | some a => simp [generate_insuree_number, mainNumberOf, hp, hl]

/-- The main number always fits in the `length - modulo_len` leading digits. -/
theorem mainNumberOf_lt {cfgLen cfgMod : Option Nat} {locs : List Location}
    {location : Option Location} {r : Nat}
    (h : genOk cfgLen cfgMod locs location r = true) :
    mainNumberOf cfgLen cfgMod locs location r <
      10 ^ (effLength cfgLen cfgMod - numLen (effModulo cfgLen cfgMod)) := by
  cases location with
  | none => exact (genOk_none_spec h).2.2
  | some loc =>
    cases hp : parseNat loc.code with
    | none => simp [genOk, hp] at h
    | some c =>
      cases hl : get_location_id_len locs loc.type with
      | none => simp [genOk, hp, hl] at h
      | some a =>
        obtain ⟨-, ha1, hca, hwa, hr⟩ := genOk_some_spec hp hl h
        simp only [mainNumberOf, hp, hl, Option.getD_some]
        have hak : a + (effLength cfgLen cfgMod - numLen (effModulo cfgLen cfgMod) - a) =
            effLength cfgLen cfgMod - numLen (effModulo cfgLen cfgMod) := by omega
        calc c * 10 ^ (effLength cfgLen cfgMod - numLen (effModulo cfgLen cfgMod) - a) + r
            < c * 10 ^ (effLength cfgLen cfgMod - numLen (effModulo cfgLen cfgMod) - a) +
              10 ^ (effLength cfgLen cfgMod - numLen (effModulo cfgLen cfgMod) - a) := by omega
          _ = (c + 1) * 10 ^ (effLength cfgLen cfgMod - numLen (effModulo cfgLen cfgMod) - a) := by
              ring
          _ ≤ 10 ^ a * 10 ^ (effLength cfgLen cfgMod - numLen (effModulo cfgLen cfgMod) - a) :=
              Nat.mul_le_mul_right _ (by omega)
          _ = 10 ^ (a + (effLength cfgLen cfgMod - numLen (effModulo cfgLen cfgMod) - a)) :=
              (pow_add 10 a _).symm
          _ = 10 ^ (effLength cfgLen cfgMod - numLen (effModulo cfgLen cfgMod)) := by rw [hak]

/-- The checksum fits in the `modulo_len` trailing digits. -/
theorem checksum_lt {cfgLen cfgMod : Option Nat} (h1 : 1 ≤ effModulo cfgLen cfgMod) (x : Nat) :
    x % effModulo cfgLen cfgMod < 10 ^ numLen (effModulo cfgLen cfgMod) :=
  Nat.lt_trans (Nat.mod_lt x h1) (lt_pow_numLen _)

/-- Core length/digit fact shared by the claims about generated numbers. -/
theorem generate_ok_length (cfgLen cfgMod : Option Nat) (locs : List Location)
    (location : Option Location) (r : Nat) (s : String)
    (h : genOk cfgLen cfgMod locs location r = true)
    (hok : generate_insuree_number cfgLen cfgMod locs location r = .ok s) :
    s.length = effLength cfgLen cfgMod ∧ s.data.all isDigitCh = true := by
  rw [generate_ok_eq cfgLen cfgMod locs location r h] at hok
  injection hok with hs
  subst hs
  have hmain := mainNumberOf_lt h
  have hW1 := one_le_numLen (effModulo cfgLen cfgMod)
  have hWL := genOk_w_lt h
  have hchk := checksum_lt (genOk_modulo_pos h) (mainNumberOf cfgLen cfgMod locs location r)
  constructor
  · show (pad0 (effLength cfgLen cfgMod - numLen (effModulo cfgLen cfgMod))
        (mainNumberOf cfgLen cfgMod locs location r) ++
      pad0 (numLen (effModulo cfgLen cfgMod))
        (mainNumberOf cfgLen cfgMod locs location r % effModulo cfgLen cfgMod)).length =
      effLength cfgLen cfgMod
    rw [List.length_append, pad0_length (by omega) hmain, pad0_length hW1 hchk]
    omega
  · show (pad0 (effLength cfgLen cfgMod - numLen (effModulo cfgLen cfgMod))
        (mainNumberOf cfgLen cfgMod locs location r) ++
      pad0 (numLen (effModulo cfgLen cfgMod))
        (mainNumberOf cfgLen cfgMod locs location r % effModulo cfgLen cfgMod)).all isDigitCh =
      true
    rw [List.all_append, pad0_all_digit, pad0_all_digit]
    rfl

/-- C7: every identifier returned by `generate_insuree_number` (with or without
a location, under the `get_random` draw ranges) is a digit string of exactly
the configured length `L` (default 9). -/
theorem generated_number_has_length (cfgLen cfgMod : Option Nat) (locs : List Location)
    (location : Option Location) (r : Nat) (s : String)
    (h : genOk cfgLen cfgMod locs location r = true)
    (hok : generate_insuree_number cfgLen cfgMod locs location r = .ok s) :
    s.length = effLength cfgLen cfgMod ∧ s.data.all isDigitCh = true :=
  generate_ok_length cfgLen cfgMod locs location r s h hok

/-- C7 witness: with the default configuration (L = 9, M = 7) and draw
10000000, the generated identifier "100000003" has 9 digits. -/
theorem generated_number_has_length_witness :
    ("100000003" : String).length = effLength (some 9) (some 7) ∧
    ("100000003" : String).data.all isDigitCh = true :=
  generated_number_has_length (some 9) (some 7) [] none 10000000 "100000003" (by decide) rfl

/-- C2: the value returned by `generate_insuree_number` splits as the
`L − W`-digit zero-padded main number followed by the `W`-digit zero-padded
checksum `main_number mod M`, where `W` is the decimal width of the modulo. -/
theorem generated_number_split (cfgLen cfgMod : Option Nat) (locs : List Location)
    (location : Option Location) (r : Nat) (s : String)
    (h : genOk cfgLen cfgMod locs location r = true)
    (hok : generate_insuree_number cfgLen cfgMod locs location r = .ok s) :
    s.data.take (effLength cfgLen cfgMod - numLen (effModulo cfgLen cfgMod)) =
      pad0 (effLength cfgLen cfgMod - numLen (effModulo cfgLen cfgMod))
        (mainNumberOf cfgLen cfgMod locs location r) ∧
    s.data.drop (effLength cfgLen cfgMod - numLen (effModulo cfgLen cfgMod)) =
      pad0 (numLen (effModulo cfgLen cfgMod))
        (mainNumberOf cfgLen cfgMod locs location r % effModulo cfgLen cfgMod) := by
  rw [generate_ok_eq cfgLen cfgMod locs location r h] at hok
  injection hok with hs
  subst hs
  have hmain := mainNumberOf_lt h
  have hWL := genOk_w_lt h
  have hlen : (pad0 (effLength cfgLen cfgMod - numLen (effModulo cfgLen cfgMod))
      (mainNumberOf cfgLen cfgMod locs location r)).length =
      effLength cfgLen cfgMod - numLen (effModulo cfgLen cfgMod) :=
    pad0_length (by omega) hmain
  exact ⟨List.take_left' hlen, List.drop_left' hlen⟩

/-- C2 witness: for the default configuration and draw 10000000 the identifier
"100000003" splits into padded main number "10000000" and checksum "3". -/
theorem generated_number_split_witness :
    ("100000003" : String).data.take (effLength (some 9) (some 7) -
        numLen (effModulo (some 9) (some 7))) =
      pad0 (effLength (some 9) (some 7) - numLen (effModulo (some 9) (some 7)))
        (mainNumberOf (some 9) (some 7) [] none 10000000) ∧
    ("100000003" : String).data.drop (effLength (some 9) (some 7) -
        numLen (effModulo (some 9) (some 7))) =
      pad0 (numLen (effModulo (some 9) (some 7)))
        (mainNumberOf (some 9) (some 7) [] none 10000000 % effModulo (some 9) (some 7)) :=
  generated_number_split (some 9) (some 7) [] none 10000000 "100000003" (by decide) rfl

/-! ### Location encoding -/

theorem maxAgg_le {l : List Nat} {x : Nat} (hx : x ∈ l) : ∃ m, maxAgg l = some m ∧ x ≤ m := by
  induction l with
  | nil => cases hx
  | cons y ys ih =>
    rcases List.mem_cons.mp hx with heq | hmem
    · subst heq
      cases h : maxAgg ys with
      | none => exact ⟨x, by simp [maxAgg, h], Nat.le_refl x⟩
      | some m => exact ⟨max x m, by simp [maxAgg, h], le_max_left x m⟩
    · obtain ⟨m, hm, hle⟩ := ih hmem
      exact ⟨max y m, by simp [maxAgg, hm], le_trans hle (le_max_right y m)⟩

theorem foldl_val_lt : ∀ {l : List Char}, l.all isDigitCh = true → ∀ acc : Nat,
    List.foldl (fun acc c => acc * 10 + (c.toNat - 48)) acc l < (acc + 1) * 10 ^ l.length := by
  intro l
  induction l with
  | nil => intro _ acc; simp
  | cons ch l ih =>
    intro hd acc
    rw [List.all_cons, Bool.and_eq_true] at hd
    have hch : ch.toNat - 48 ≤ 9 := by
      have h1 := hd.1
      simp only [isDigitCh, Bool.and_eq_true, decide_eq_true_eq] at h1
      omega
    simp only [List.foldl, List.length_cons]
    calc List.foldl (fun acc c => acc * 10 + (c.toNat - 48)) (acc * 10 + (ch.toNat - 48)) l
        < (acc * 10 + (ch.toNat - 48) + 1) * 10 ^ l.length := ih hd.2 _
      _ ≤ ((acc + 1) * 10) * 10 ^ l.length :=
          Nat.mul_le_mul_right _ (by omega)
      _ = (acc + 1) * 10 ^ (l.length + 1) := by ring

/-- A successfully parsed code is below `10 ^ (its string length)`. -/
theorem parseNat_lt {s : String} {c : Nat} (hp : parseNat s = some c) : c < 10 ^ s.length := by
  unfold parseNat at hp
  by_cases h1 : s.data.isEmpty
  · rw [if_pos h1] at hp
    cases hp
  · rw [if_neg h1] at hp
    by_cases h2 : s.data.all isDigitCh
    · rw [if_pos h2] at hp
      injection hp with hp
      subst hp
      have hv := foldl_val_lt h2 0
      rw [Nat.zero_add, Nat.one_mul] at hv
      exact hv
    · rw [if_neg h2] at hp
      cases hp

/-- A currently valid location's parsed code always fits in the width reported
by `get_location_id_len` for its type: the justification for the corresponding
`genOk` conjuncts. -/
theorem code_fits_location_len {locs : List Location} {loc : Location} {c : Nat}
    (hmem : loc ∈ locs) (hval : loc.validity_to = none)
    (hp : parseNat loc.code = some c) :
    ∃ a, get_location_id_len locs loc.type = some a ∧ 1 ≤ a ∧ c < 10 ^ a := by
  have hfilter : loc ∈ locs.filter fun l => l.type == loc.type && l.validity_to == none := by
    simp [List.mem_filter, hmem, hval]
  have hmemlen : loc.code.length ∈
      (locs.filter fun l => l.type == loc.type && l.validity_to == none).map
        fun l => l.code.length :=
    List.mem_map_of_mem _ hfilter
  obtain ⟨a, ha, hle⟩ := maxAgg_le hmemlen
  have hnonempty : 1 ≤ loc.code.length := by
    rcases Nat.eq_zero_or_pos loc.code.length with h0 | hpos
    · exfalso
      have hempty : loc.code.data.isEmpty = true := by
        have hd : loc.code.data.length = 0 := h0
        cases hdata : loc.code.data with
        | nil => rfl
        | cons hd0 tl0 => rw [hdata] at hd; simp at hd
      unfold parseNat at hp
      rw [if_pos hempty] at hp
      cases hp
    · exact hpos
  exact ⟨a, by rwa [get_location_id_len], by omega,
    lt_of_lt_of_le (parseNat_lt hp) (Nat.pow_le_pow_right (by norm_num) hle)⟩

/-- C8: generated with a location whose code parses, the identifier's first
`locLen` digits are the zero-padded location code (and evaluate back to it),
the next `L − W − locLen` digits are the random draw, the total length is `L`,
and the final `W` digits are the zero-padded checksum of the main number
`code * 10^(L−W−locLen) + r`. -/
theorem location_encoded_number (cfgLen cfgMod : Option Nat) (locs : List Location)
    (loc : Location) (r c a : Nat) (s : String)
    (hp : parseNat loc.code = some c)
    (hl : get_location_id_len locs loc.type = some a)
    (h : genOk cfgLen cfgMod locs (some loc) r = true)
    (hok : generate_insuree_number cfgLen cfgMod locs (some loc) r = .ok s) :
    s.data.take a = pad0 a c ∧
    charsVal (s.data.take a) = c ∧
    (s.data.drop a).take (effLength cfgLen cfgMod - numLen (effModulo cfgLen cfgMod) - a) =
      pad0 (effLength cfgLen cfgMod - numLen (effModulo cfgLen cfgMod) - a) r ∧
    s.length = effLength cfgLen cfgMod ∧
    s.data.drop (effLength cfgLen cfgMod - numLen (effModulo cfgLen cfgMod)) =
      pad0 (numLen (effModulo cfgLen cfgMod))
        ((c * 10 ^ (effLength cfgLen cfgMod - numLen (effModulo cfgLen cfgMod) - a) + r) %
          effModulo cfgLen cfgMod) := by
  obtain ⟨hm1, ha1, hca, hwa, hr⟩ := genOk_some_spec hp hl h
  have hlen := generate_ok_length cfgLen cfgMod locs (some loc) r s h hok
  rw [generate_ok_eq cfgLen cfgMod locs (some loc) r h] at hok
  injection hok with hs
  subst hs
  have hmainval : mainNumberOf cfgLen cfgMod locs (some loc) r =
      c * 10 ^ (effLength cfgLen cfgMod - numLen (effModulo cfgLen cfgMod) - a) + r := by
    simp [mainNumberOf, hp, hl]
  have hmain := mainNumberOf_lt h
  have hk1 : 1 ≤ effLength cfgLen cfgMod - numLen (effModulo cfgLen cfgMod) - a := by omega
  have hak : a + (effLength cfgLen cfgMod - numLen (effModulo cfgLen cfgMod) - a) =
      effLength cfgLen cfgMod - numLen (effModulo cfgLen cfgMod) := by omega
  have hmain2 : c * 10 ^ (effLength cfgLen cfgMod - numLen (effModulo cfgLen cfgMod) - a) + r <
      10 ^ (effLength cfgLen cfgMod - numLen (effModulo cfgLen cfgMod)) := hmainval ▸ hmain
  have hsplit2 := fixedPad_mul_pow_add
    (k := effLength cfgLen cfgMod - numLen (effModulo cfgLen cfgMod) - a) a c hr
  rw [hak] at hsplit2
  have hsplit : pad0 (effLength cfgLen cfgMod - numLen (effModulo cfgLen cfgMod))
      (mainNumberOf cfgLen cfgMod locs (some loc) r) =
      pad0 a c ++ pad0 (effLength cfgLen cfgMod - numLen (effModulo cfgLen cfgMod) - a) r := by
    rw [hmainval, pad0_eq_fixedPad (by omega) hmain2, hsplit2,
      pad0_eq_fixedPad ha1 hca, pad0_eq_fixedPad hk1 hr]
  have hlena : (pad0 a c).length = a := pad0_length ha1 hca
  have hlenk : (pad0 (effLength cfgLen cfgMod - numLen (effModulo cfgLen cfgMod) - a) r).length =
      effLength cfgLen cfgMod - numLen (effModulo cfgLen cfgMod) - a := pad0_length hk1 hr
  have hdata : (String.mk (pad0 (effLength cfgLen cfgMod - numLen (effModulo cfgLen cfgMod))
      (mainNumberOf cfgLen cfgMod locs (some loc) r) ++
      pad0 (numLen (effModulo cfgLen cfgMod))
        (mainNumberOf cfgLen cfgMod locs (some loc) r % effModulo cfgLen cfgMod))).data =
      pad0 a c ++ ((pad0 (effLength cfgLen cfgMod - numLen (effModulo cfgLen cfgMod) - a) r) ++
        pad0 (numLen (effModulo cfgLen cfgMod))
          (mainNumberOf cfgLen cfgMod locs (some loc) r % effModulo cfgLen cfgMod)) := by
    show pad0 (effLength cfgLen cfgMod - numLen (effModulo cfgLen cfgMod))
        (mainNumberOf cfgLen cfgMod locs (some loc) r) ++ _ = _
    rw [hsplit, List.append_assoc]
  refine ⟨?_, ?_, ?_, ?_, ?_⟩
  · rw [hdata, List.take_left' hlena]
  · rw [hdata, List.take_left' hlena, charsVal_pad0]
  · rw [hdata, List.drop_left' hlena, List.take_left' hlenk]
  · exact hlen.1
  · have hlenmain : (pad0 (effLength cfgLen cfgMod - numLen (effModulo cfgLen cfgMod))
        (mainNumberOf cfgLen cfgMod locs (some loc) r)).length =
        effLength cfgLen cfgMod - numLen (effModulo cfgLen cfgMod) :=
      pad0_length (by omega) hmain
    show (pad0 (effLength cfgLen cfgMod - numLen (effModulo cfgLen cfgMod))
        (mainNumberOf cfgLen cfgMod locs (some loc) r) ++ _).drop _ = _
    rw [List.drop_left' hlenmain, hmainval]

/-- C8 witness: with location code "12" (type width 2), draw 345678 and default
configuration, the identifier is "123456782": prefix "12", random part
"345678", checksum digit "2". -/
theorem location_encoded_number_witness :
    ("123456782" : String).data.take 2 = pad0 2 12 ∧
    charsVal (("123456782" : String).data.take 2) = 12 ∧
    (("123456782" : String).data.drop 2).take (effLength (some 9) (some 7) -
        numLen (effModulo (some 9) (some 7)) - 2) =
      pad0 (effLength (some 9) (some 7) - numLen (effModulo (some 9) (some 7)) - 2) 345678 ∧
    ("123456782" : String).length = effLength (some 9) (some 7) ∧
    ("123456782" : String).data.drop (effLength (some 9) (some 7) -
        numLen (effModulo (some 9) (some 7))) =
      pad0 (numLen (effModulo (some 9) (some 7)))
        ((12 * 10 ^ (effLength (some 9) (some 7) - numLen (effModulo (some 9) (some 7)) - 2) +
          345678) % effModulo (some 9) (some 7)) :=
  location_encoded_number (some 9) (some 7) [⟨"12", "V", none⟩] ⟨"12", "V", none⟩
    345678 12 2 "123456782" (by decide) (by decide) (by decide) rfl

/-! ### Failure modes of generation -/

theorem maxAttempts_eq : maxAttempts = 9999 := rfl

/-- C9: a location code that does not parse as an integer makes
`generate_insuree_number` fail at once with the re-raised `ValueError`
(`locationCodeInvalid`); the retry loop propagates it on its very first
attempt, whatever retry budget remains, and `generate_insuree_numbers`
surfaces it for any positive amount. -/
theorem invalid_location_code_fails (cfgLen cfgMod : Option Nat) (locs : List Location)
    (loc : Location) (r : Nat) (store : GenStore) (rng : Nat → Nat)
    (amount fuel idx : Nat) (hp : parseNat loc.code = none) (ha : 1 ≤ amount) :
    generate_insuree_number cfgLen cfgMod locs (some loc) r = .error .locationCodeInvalid ∧
    retryLoop cfgLen cfgMod locs (some loc) store rng idx (fuel + 1) =
      .error (.genError .locationCodeInvalid) ∧
    generate_insuree_numbers amount cfgLen cfgMod locs (some loc) store rng =
      .error (.genError .locationCodeInvalid) := by
  have hgen : ∀ r0 : Nat, generate_insuree_number cfgLen cfgMod locs (some loc) r0 =
      .error .locationCodeInvalid := by
    intro r0
    simp [generate_insuree_number, hp]
  have hretry : ∀ (st : GenStore) (ix f : Nat),
      retryLoop cfgLen cfgMod locs (some loc) st rng ix (f + 1) =
        .error (.genError .locationCodeInvalid) := by
    intro st ix f
    simp [retryLoop, hgen]
  refine ⟨hgen r, hretry store idx fuel, ?_⟩
  obtain ⟨m, rfl⟩ : ∃ m, amount = m + 1 := ⟨amount - 1, by omega⟩
  show batchLoop cfgLen cfgMod locs (some loc) rng store 0 (m + 1) = _
  simp only [batchLoop, maxAttempts_eq]
  rw [show (9999 : Nat) = 9998 + 1 from rfl, hretry]

/-- C9 witness: code "ABC" fails immediately at every level. -/
theorem invalid_location_code_fails_witness :
    generate_insuree_number (some 9) (some 7) [] (some ⟨"ABC", "V", none⟩) 123 =
      .error .locationCodeInvalid ∧
    retryLoop (some 9) (some 7) [] (some ⟨"ABC", "V", none⟩) ⟨[], []⟩ (fun _ => 123) 0 (5 + 1) =
      .error (.genError .locationCodeInvalid) ∧
    generate_insuree_numbers 1 (some 9) (some 7) [] (some ⟨"ABC", "V", none⟩) ⟨[], []⟩
      (fun _ => 123) = .error (.genError .locationCodeInvalid) :=
  invalid_location_code_fails (some 9) (some 7) [] ⟨"ABC", "V", none⟩ 123 ⟨[], []⟩
    (fun _ => 123) 1 5 0 (by decide) (by decide)

/-- C10: when no currently valid location of the requested type exists, the
length lookup returns `none` rather than an integer, and generating with a
(numeric-coded) location of that type fails with the uncaught `TypeError` —
neither an identifier nor one of the two specified errors. -/
theorem missing_location_type_fails (cfgLen cfgMod : Option Nat) (locs : List Location)
    (loc : Location) (r c : Nat) (hp : parseNat loc.code = some c)
    (hvalid : ∀ l ∈ locs, l.type = loc.type → l.validity_to ≠ none) :
    get_location_id_len locs loc.type = none ∧
    generate_insuree_number cfgLen cfgMod locs (some loc) r = .error .typeErrorNone := by
  have hf : (locs.filter fun l => l.type == loc.type && l.validity_to == none) = [] := by
    rw [List.filter_eq_nil_iff]
    intro l hl
    simp only [Bool.and_eq_true, beq_iff_eq, not_and]
    exact fun ht => hvalid l hl ht
  have hlen : get_location_id_len locs loc.type = none := by
    rw [get_location_id_len, hf]
    rfl
  exact ⟨hlen, by simp [generate_insuree_number, hp, hlen]⟩

/-- C10 witness: the store holds only an expired location of type "V", so a
type-"D" lookup is `none` and generation raises the type error. -/
theorem missing_location_type_fails_witness :
    get_location_id_len [Location.mk "5" "V" (some 3)] "D" = none ∧
    generate_insuree_number (some 9) (some 7) [⟨"5", "V", some 3⟩]
      (some ⟨"12", "D", none⟩) 99 = .error .typeErrorNone :=
  missing_location_type_fails (some 9) (some 7) [⟨"5", "V", some 3⟩] ⟨"12", "D", none⟩ 99 12
    (by decide) (by decide)

/-- When every candidate the generator can produce collides with a stored
identifier, the retry loop exhausts its whole budget and fails. -/
theorem retryLoop_all_collide (cfgLen cfgMod : Option Nat) (locs : List Location)
    (location : Option Location) (store : GenStore) (rng : Nat → Nat)
    (h : ∀ idx : Nat, ∃ num,
      generate_insuree_number cfgLen cfgMod locs location (rng idx) = .ok num ∧
      (store.insurees.contains num || store.assigned.contains num) = true) :
    ∀ fuel idx, retryLoop cfgLen cfgMod locs location store rng idx fuel =
      .error .exhausted := by
  intro fuel
  induction fuel with
  | zero => intro idx; rfl
  | succ f ih =>
    intro idx
    obtain ⟨num, hg, hc⟩ := h idx
    simp only [retryLoop, hg]
    rw [if_pos hc]
    exact ih (idx + 1)

/-- A failing retry loop aborts batch population with its error. -/
theorem batchLoop_retry_error (cfgLen cfgMod : Option Nat) (locs : List Location)
    (location : Option Location) (rng : Nat → Nat) (store : GenStore)
    (idx n : Nat) (e : BatchError)
    (h : retryLoop cfgLen cfgMod locs location store rng idx maxAttempts = .error e) :
    batchLoop cfgLen cfgMod locs location rng store idx (n + 1) = .error e := by
  simp only [batchLoop, h]

/-- C4: the source's retry loop is `for retry in range(1, 10000)`, which makes
9999 attempts — one fewer than the 10,000 of its own error message — and with
every candidate colliding, batch generation raises the exhaustion error after
those 9999 attempts. -/
theorem retry_cap_is_9999 :
    maxAttempts = 9999 ∧ maxAttempts ≠ 10000 ∧
    generate_insuree_numbers 1 (some 9) (some 7) [] none ⟨["100000003"], []⟩
      (fun _ => 10000000) = .error .exhausted := by
  refine ⟨maxAttempts_eq, by rw [maxAttempts_eq]; omega, ?_⟩
  have hone : generate_insuree_number (some 9) (some 7) [] none 10000000 =
      .ok "100000003" := by rfl
  have hcol := retryLoop_all_collide (some 9) (some 7) [] none ⟨["100000003"], []⟩
    (fun _ => 10000000) (fun idx => ⟨"100000003", hone, by decide⟩)
  exact batchLoop_retry_error (some 9) (some 7) [] none (fun _ => 10000000)
    ⟨["100000003"], []⟩ 0 0 .exhausted (hcol maxAttempts 0)

/-! ### Uniqueness of committed batch numbers -/

theorem contains_eq_false_iff {l : List String} {a : String} :
    l.contains a = false ↔ a ∉ l := by
  simp [List.contains]

/-- A number accepted by the retry loop was, at that moment, in neither the
person store nor the assigned-number store. -/
theorem retryLoop_ok_spec (cfgLen cfgMod : Option Nat) (locs : List Location)
    (location : Option Location) (store : GenStore) (rng : Nat → Nat) :
    ∀ fuel idx num idx2,
      retryLoop cfgLen cfgMod locs location store rng idx fuel = .ok (num, idx2) →
      num ∉ store.insurees ∧ num ∉ store.assigned := by
  intro fuel
  induction fuel with
  | zero => intro idx num idx2 h; cases h
  | succ f ih =>
    intro idx num idx2 h
    simp only [retryLoop] at h
    split at h
    · cases h
    · split at h
      · exact ih _ _ _ h
      · rename_i hcond
        injection h with h
        injection h with hnum hidx
        subst hnum
        simp only [Bool.or_eq_true, not_or, Bool.not_eq_true, contains_eq_false_iff] at hcond
        exact hcond

/-- Invariant of the batch population loop: the committed numbers are distinct,
absent from both initial stores, and appended in order to the assigned store. -/
theorem batchLoop_ok_spec (cfgLen cfgMod : Option Nat) (locs : List Location)
    (location : Option Location) (rng : Nat → Nat) :
    ∀ (amount : Nat) (store : GenStore) (idx : Nat) (store2 : GenStore) (nums : List String),
      batchLoop cfgLen cfgMod locs location rng store idx amount = .ok (store2, nums) →
      nums.length = amount ∧ nums.Nodup ∧
      (∀ m ∈ nums, m ∉ store.insurees ∧ m ∉ store.assigned) ∧
      store2.insurees = store.insurees ∧ store2.assigned = store.assigned ++ nums := by
  intro amount
  induction amount with
  | zero =>
    intro store idx store2 nums h
    simp only [batchLoop] at h
    injection h with h
    injection h with h1 h2
    subst h1
    subst h2
    simp
  | succ n ih =>
    intro store idx store2 nums h
    simp only [batchLoop] at h
    split at h
    · cases h
    · rename_i num idx2 hr
      split at h
      · cases h
      · rename_i store3 nums3 hb
        injection h with h
        injection h with h1 h2
        subst h1
        subst h2
        obtain ⟨hnin, hnas⟩ := retryLoop_ok_spec cfgLen cfgMod locs location store rng
          maxAttempts idx num idx2 hr
        obtain ⟨hlen3, hnd3, hmem3, hins3, has3⟩ := ih _ idx2 _ _ hb
        have hnotin3 : num ∉ nums3 := by
          intro hmem
          have := (hmem3 num hmem).2
          simp at this
        refine ⟨by simp [hlen3], List.nodup_cons.mpr ⟨hnotin3, hnd3⟩, ?_, hins3, ?_⟩
        · intro m hm
          rcases List.mem_cons.mp hm with heq | hmem
          · subst heq
            exact ⟨hnin, hnas⟩
          · have hm3 := hmem3 m hmem
            refine ⟨hm3.1, ?_⟩
            intro habs
            exact hm3.2 (by simp [habs])
        · rw [has3]
          simp

/-- C1: on success, `generate_insuree_numbers(amount, ...)` commits exactly
`amount` pairwise-distinct identifiers, each absent from every person
identifier and from every previously existing assigned number at the instant
it is committed; the final assigned store is the original one extended by
exactly those numbers. -/
theorem batch_numbers_unique (amount : Nat) (cfgLen cfgMod : Option Nat)
    (locs : List Location) (location : Option Location) (store store2 : GenStore)
    (rng : Nat → Nat) (nums : List String)
    (h : generate_insuree_numbers amount cfgLen cfgMod locs location store rng =
      .ok (store2, nums)) :
    nums.length = amount ∧ nums.Nodup ∧
    (∀ m ∈ nums, m ∉ store.insurees ∧ m ∉ store.assigned) ∧
    store2.insurees = store.insurees ∧ store2.assigned = store.assigned ++ nums :=
  batchLoop_ok_spec cfgLen cfgMod locs location rng amount store 0 store2 nums h

/-- C1 witness: a concrete successful batch of two distinct fresh numbers. -/
theorem batch_numbers_unique_witness :
    (["100000003", "100000014"] : List String).length = 2 ∧
    (["100000003", "100000014"] : List String).Nodup ∧
    (∀ m ∈ (["100000003", "100000014"] : List String),
      m ∉ (GenStore.mk [] []).insurees ∧ m ∉ (GenStore.mk [] []).assigned) ∧
    (GenStore.mk [] ["100000003", "100000014"]).insurees = (GenStore.mk [] []).insurees ∧
    (GenStore.mk [] ["100000003", "100000014"]).assigned =
      (GenStore.mk [] []).assigned ++ ["100000003", "100000014"] :=
  batch_numbers_unique 2 (some 9) (some 7) [] none ⟨[], []⟩
    ⟨[], ["100000003", "100000014"]⟩ (fun i => 10000000 + i)
    ["100000003", "100000014"] rfl

/-! ### Export: selection, print marking, dry runs -/

theorem contains_eq_true_iff {l : List String} {a : String} :
    l.contains a = true ↔ a ∈ l := by
  simp [List.contains]

/-- Evaluation of `export_insurees` when the photos decode: the outcome depends
on the zip write, and the store is updated (by chf_id membership in the
selection) unless `dry_run`. -/
theorem export_insurees_eq (store : ExportStore) (batch amount : Option Nat)
    (dry_run : Bool) (decodeOk : String → Bool) (zipOk : Bool) (now : Nat) (ps : List String)
    (hps : bundlePhotos decodeOk (get_insurees_to_export store batch amount) = some ps) :
    export_insurees store batch amount dry_run decodeOk zipOk now =
      ((if zipOk then .ok (some ("index.csv" :: ps)) else .error .zipWriteError),
       if dry_run then store else
         { store with numbers := store.numbers.map fun n =>
           if ((get_insurees_to_export store batch amount).map fun i =>
               i.chf_id).contains n.insuree_number then
             { n with print_date := some now }
           else n }) := by
  simp only [export_insurees, hps]
  cases zipOk <;> cases dry_run <;> rfl

/-- A decode failure aborts the export before any store write. -/
theorem export_insurees_decode_fail (store : ExportStore) (batch amount : Option Nat)
    (dry_run : Bool) (decodeOk : String → Bool) (zipOk : Bool) (now : Nat)
    (hps : bundlePhotos decodeOk (get_insurees_to_export store batch amount) = none) :
    export_insurees store batch amount dry_run decodeOk zipOk now =
      (.error .decodeError, store) := by
  simp only [export_insurees, hps]

/-- Every selected insuree is joined to some unprinted, batch-matching number
row. -/
theorem selection_row_exists {store : ExportStore} {batch amount : Option Nat}
    {i : InsureeRec} (hi : i ∈ get_insurees_to_export store batch amount) :
    i ∈ store.insurees ∧ ∃ n0, n0 ∈ store.numbers ∧ numberMatches batch i n0 = true := by
  have hrows : i ∈ store.insurees.flatMap fun j =>
      (store.numbers.filter (numberMatches batch j)).map fun _ => j := by
    simp only [get_insurees_to_export] at hi
    split at hi
    · exact List.take_subset _ _ hi
    · exact hi
  rw [List.mem_flatMap] at hrows
  obtain ⟨j, hj, hmem⟩ := hrows
  rw [List.mem_map] at hmem
  obtain ⟨n0, hn0, heq⟩ := hmem
  subst heq
  rw [List.mem_filter] at hn0
  exact ⟨hj, n0, hn0.1, hn0.2⟩

/-- When assigned numbers are unique, a number row whose value occurs among the
selected chf_ids is itself the joining row: unprinted and batch-matching. -/
theorem selRow_of_contains {store : ExportStore} {batch amount : Option Nat}
    {n : BatchNumber}
    (hnd : (store.numbers.map fun x => x.insuree_number).Nodup)
    (hn : n ∈ store.numbers)
    (hc : ((get_insurees_to_export store batch amount).map fun i => i.chf_id).contains
      n.insuree_number = true) :
    n.print_date = none ∧ batchMatch batch n = true := by
  rw [contains_eq_true_iff, List.mem_map] at hc
  obtain ⟨i, hi, hchf⟩ := hc
  obtain ⟨hins, n0, hn0, hmatch⟩ := selection_row_exists hi
  simp only [numberMatches, Bool.and_eq_true, beq_iff_eq] at hmatch
  obtain ⟨⟨hid, hpd⟩, hbm⟩ := hmatch
  have heqn : n = n0 :=
    List.inj_on_of_nodup_map hnd hn hn0 (by rw [hid, hchf])
  rw [heqn]
  exact ⟨hpd, hbm⟩

/-- C3 (amended): with unique assigned numbers and decodable photos, a
non-dry-run export sets the print timestamp of exactly the selected rows
(unprinted, batch-matching, value among the selected chf_ids) and of no other
row; a photo decode failure aborts before any print-state write; but the
update runs before the zip archive is written, so the timestamps are set even
when the zip write fails. -/
theorem export_print_marking (store : ExportStore) (batch amount : Option Nat)
    (decodeOk : String → Bool) (zipOk : Bool) (now : Nat) (ps : List String)
    (hnd : (store.numbers.map fun n => n.insuree_number).Nodup)
    (hps : bundlePhotos decodeOk (get_insurees_to_export store batch amount) = some ps) :
    (export_insurees store batch amount false decodeOk zipOk now).2.numbers =
      store.numbers.map (fun n => if selRow store batch amount n = true then
        { n with print_date := some now } else n) ∧
    (export_insurees store batch amount false decodeOk zipOk now).1 =
      (if zipOk then .ok (some ("index.csv" :: ps)) else .error .zipWriteError) ∧
    (∀ dOk2 : String → Bool,
      bundlePhotos dOk2 (get_insurees_to_export store batch amount) = none →
      export_insurees store batch amount false dOk2 zipOk now =
        (.error .decodeError, store)) := by
  have hmap : (store.numbers.map fun n =>
      if ((get_insurees_to_export store batch amount).map fun i => i.chf_id).contains
          n.insuree_number then { n with print_date := some now } else n) =
      store.numbers.map fun n =>
        if selRow store batch amount n = true then { n with print_date := some now } else n := by
    apply List.map_congr_left
    intro n hn
    by_cases hc : ((get_insurees_to_export store batch amount).map fun i => i.chf_id).contains
        n.insuree_number = true
    · obtain ⟨hpd, hbm⟩ := selRow_of_contains hnd hn hc
      have hsel : selRow store batch amount n = true := by
        simp only [selRow, hpd, hbm, hc, beq_self_eq_true, Bool.and_true, Bool.true_and]
      rw [if_pos hc, if_pos hsel]
    · have hc2 : ((get_insurees_to_export store batch amount).map fun i => i.chf_id).contains
          n.insuree_number = false := Bool.eq_false_iff.mpr hc
      have hsel : ¬selRow store batch amount n = true := by
        simp only [selRow, hc2, Bool.and_false]
        exact Bool.false_ne_true
      rw [if_neg hc, if_neg hsel]
  have he := export_insurees_eq store batch amount false decodeOk zipOk now ps hps
  refine ⟨?_, ?_, fun dOk2 hnone =>
    export_insurees_decode_fail store batch amount false dOk2 zipOk now hnone⟩
  · rw [he]
    exact hmap
  · rw [he]

/-- The store of the C3 witness: insuree "A" (with photo) is selected through
its unprinted row, "B" is already printed, "Z" has no matching person. -/
def printMarkStore : ExportStore :=
  ⟨[⟨"A", "x", "y", "1990", "F", some "QUJD"⟩, ⟨"B", "x", "y", "1990", "F", none⟩],
   [⟨1, "A", none⟩, ⟨1, "B", some 3⟩, ⟨2, "Z", none⟩]⟩

/-- C3 witness: on `printMarkStore`, a successful export marks exactly the row
of "A"; turning off decoding aborts with the store untouched. -/
theorem export_print_marking_witness :
    (export_insurees printMarkStore none none false (fun _ => true) true 9).2.numbers =
      printMarkStore.numbers.map (fun n => if selRow printMarkStore none none n = true then
        { n with print_date := some 9 } else n) ∧
    (export_insurees printMarkStore none none false (fun _ => true) true 9).1 =
      (if true then .ok (some ("index.csv" :: ["A.jpg"])) else .error .zipWriteError) ∧
    export_insurees printMarkStore none none false (fun _ => false) true 9 =
      (.error .decodeError, printMarkStore) :=
  ⟨(export_print_marking printMarkStore none none (fun _ => true) true 9 ["A.jpg"]
      (by decide) rfl).1,
   (export_print_marking printMarkStore none none (fun _ => true) true 9 ["A.jpg"]
      (by decide) rfl).2.1,
   (export_print_marking printMarkStore none none (fun _ => true) true 9 ["A.jpg"]
      (by decide) rfl).2.2 (fun _ => false) rfl⟩

/-- The store of the C3 counterexample: one insuree "A" without photo, one
unprinted assigned number. -/
def zipFailStore : ExportStore :=
  ⟨[⟨"A", "o", "l", "d", "g", none⟩], [⟨1, "A", none⟩]⟩

/-- C3 counterexample: the claim as stated is false — with a failing zip write
(a bundling failure) the export fails, yet the print timestamp has already
been set, because the source commits the `print_date` update before writing
the archive. -/
theorem export_zip_failure_mutates :
    (export_insurees zipFailStore none none false (fun _ => true) false 5).1 =
      .error .zipWriteError ∧
    (export_insurees zipFailStore none none false (fun _ => true) false 5).2 ≠ zipFailStore ∧
    (export_insurees zipFailStore none none false (fun _ => true) false 5).2.numbers =
      [⟨1, "A", some 5⟩] :=
  ⟨rfl, by decide, rfl⟩

/-- The store of the C5 check: its only number is already printed, so the
export selection is empty. -/
def emptySelStore : ExportStore :=
  ⟨[⟨"C", "o", "l", "d", "g", none⟩], [⟨1, "C", some 3⟩]⟩

/-- C5: the source's `if to_export is None: return None` guard is dead — the
raw queryset is never `None` — so an export with an empty selection still
returns an archive (holding just the empty index) instead of the specified
null; the vacuous update indeed leaves the store unchanged. -/
theorem export_empty_selection_returns_archive :
    get_insurees_to_export emptySelStore none none = [] ∧
    export_insurees emptySelStore none none false (fun _ => true) true 0 =
      (.ok (some ["index.csv"]), emptySelStore) :=
  ⟨rfl, rfl⟩

/-- C6: with `dryRun = true` the export never mutates the store — no print
timestamp changes for any store state — it produces the archive when the zip
write succeeds, and a second dry run with the same arguments therefore selects
exactly the same candidate set. -/
theorem export_dry_run_pure (store : ExportStore) (batch amount : Option Nat)
    (decodeOk : String → Bool) (zipOk : Bool) (now : Nat) (ps : List String)
    (hps : bundlePhotos decodeOk (get_insurees_to_export store batch amount) = some ps) :
    (export_insurees store batch amount true decodeOk zipOk now).2 = store ∧
    (export_insurees store batch amount true decodeOk zipOk now).1 =
      (if zipOk then .ok (some ("index.csv" :: ps)) else .error .zipWriteError) ∧
    get_insurees_to_export (export_insurees store batch amount true decodeOk zipOk now).2
      batch amount = get_insurees_to_export store batch amount := by
  have he := export_insurees_eq store batch amount true decodeOk zipOk now ps hps
  refine ⟨by rw [he]; rfl, by rw [he], by rw [he]; rfl⟩

/-- The store of the C6 witness: one insuree with a photo and an unprinted
number. -/
def dryRunStore : ExportStore :=
  ⟨[⟨"A", "x", "y", "1990", "F", some "QUJD"⟩], [⟨1, "A", none⟩]⟩

/-- C6 witness: a concrete dry run returns the archive and leaves the store —
hence the next selection — unchanged. -/
theorem export_dry_run_pure_witness :
    (export_insurees dryRunStore none none true (fun _ => true) true 7).2 = dryRunStore ∧
    (export_insurees dryRunStore none none true (fun _ => true) true 7).1 =
      (if true then .ok (some ("index.csv" :: ["A.jpg"])) else .error .zipWriteError) ∧
    get_insurees_to_export (export_insurees dryRunStore none none true (fun _ => true) true 7).2
      none none = get_insurees_to_export dryRunStore none none :=
  export_dry_run_pure dryRunStore none none (fun _ => true) true 7 ["A.jpg"] rfl

end InsureeBatch
